import Mathlib

/-!
# Verification of the draftfast constraint compiler (`src/draftfast/optimizer.py`)

A shallow embedding of the `Optimizer` class: player records, rule sets,
optimizer settings, lineup (group) constraints and exposure directives are
Lean structures; each constraint-family builder (`_set_player_constraints`,
`_set_player_group_constraints`, `_set_combo`, `_set_no_opp_defense`,
`_set_no_duplicate_lineups`, `_set_single_captain`) becomes an executable
Lean function producing symbolic linear constraints, and `Optimizer.__init__`
becomes `mkOptimizer`, which may fail with the `PlayerBanAndLockException`.

Solver-side objects are modelled symbolically: a linear constraint is a pair
of optional inclusive bounds (none = unbounded on that side) together with a
list of (variable index, coefficient) pairs.  A variable index `i` stands for
the binary decision variable of `players[i]`.
-/

/-- A player record as consumed by the optimizer: the fields of the player
objects that `optimizer.py` reads.  `opp` models the player's opposing team
in its match-up, so that `is_opposing_team_in_match_up(team)` is `opp == team`. -/
structure Player where
  name : String
  team : String
  pos : String
  solver_id : String
  multi_position : Bool
  captain : Bool
  lock : Bool
  ban : Bool
  opp : String
  cost : Int
  proj : Int
  deriving Repr, DecidableEq, Inhabited

/-- `Player.is_opposing_team_in_match_up` from the player model: whether
`team` is the opposing team of this player's match-up. -/
def Player.is_opposing_team_in_match_up (p : Player) (team : String) : Bool :=
  p.opp == team

/-- A group constraint record from `LineupConstraints`: a list of player
names with either an exact count or a (lower, upper) bound.  `exact` is
`none` when unspecified; `some 0` is a specified-but-falsy exact count
(Python truthiness treats both the same). -/
structure GroupConstraint where
  players : List String
  exact : Option Int
  lb : Int
  ub : Int
  deriving Repr, DecidableEq, Inhabited

/-- The `LineupConstraints` collection: the iterable of group constraints
plus the name-keyed lock/ban lookup predicates (`is_locked` / `is_banned`)
that the optimizer calls.  The lookups are kept abstract as boolean
predicates, since only their results are read by `optimizer.py`. -/
structure LineupConstraints where
  groups : List GroupConstraint
  lockedPred : String → Bool
  bannedPred : String → Bool

/-- `LineupConstraints.is_locked(name)`. -/
def LineupConstraints.is_locked (lc : LineupConstraints) (n : String) : Bool :=
  lc.lockedPred n

/-- `LineupConstraints.is_banned(name)`. -/
def LineupConstraints.is_banned (lc : LineupConstraints) (n : String) : Bool :=
  lc.bannedPred n

/-- An existing roster: the sequence `roster.sorted_players()` as read by
`_set_no_duplicate_lineups`. -/
def Roster : Type := List Player

/-- `OptimizerSettings`, restricted to the fields `optimizer.py` reads.
`uniques = 0` models an unset/falsy uniques setting (Python treats `None`
and `0` identically in `if self.settings.uniques:`). -/
structure OptimizerSettings where
  existing_rosters : List (List Player) := []
  uniques : Int := 0
  force_combo : Bool := false
  combo_allow_te : Bool := false
  no_offense_against_defense : Bool := false
  no_defense_against_captain : Bool := false
  min_teams : Int := 0

/-- The default `OptimizerSettings()` used when the caller passes no
settings: no rosters, no uniques floor, no combo, no anti-correlation. -/
def OptimizerSettings.default : OptimizerSettings := {}

/-- The `RuleSet` fields read by `Optimizer.__init__`. -/
structure RuleSet where
  salary_min : Int
  salary_max : Int
  roster_size : Int
  position_limits : List (String × Int × Int)
  general_position_limits : List (String × Int × Int)
  offensive_positions : List String
  defensive_positions : List String
  game_type : String

/-- A symbolic linear constraint over the decision variables: inclusive
lower/upper bounds (`none` = unbounded on that side) and a list of
(variable index, coefficient) pairs, in the order coefficients were set. -/
structure LinCon where
  lb : Option Int
  ub : Option Int
  coeffs : List (Nat × Int)
  deriving Repr, DecidableEq, Inhabited

/-- Value of a constraint's linear expression under an assignment `x` of the
decision variables. -/
def LinCon.lhs (c : LinCon) (x : Nat → Int) : Int :=
  (c.coeffs.map (fun vc => vc.2 * x vc.1)).sum

/-- Satisfaction of a symbolic constraint by an assignment: the linear
expression lies within both present bounds. -/
def LinCon.sat (c : LinCon) (x : Nat → Int) : Bool :=
  (c.lb.all (fun l => l ≤ c.lhs x)) && (c.ub.all (fun u => c.lhs x ≤ u))

/-- `self.enumerated_players`: the player list paired with indices. -/
def enumeratedPlayers (ps : List Player) : List (Nat × Player) :=
  ps.enum

/-- `self.name_to_idx_map[name]`: the construction loop overwrites the entry
on every occurrence, so the map holds the LAST index with that name. -/
def nameToIdx (ps : List Player) (n : String) : Option Nat :=
  (((enumeratedPlayers ps).filter (fun ip => ip.2.name == n)).map (fun ip => ip.1)).getLast?

/-- `self.player_to_idx_map.get(solver_id)`: last index with that solver id,
`none` when absent (`dict.get` returns `None`). -/
def solverIdToIdx (ps : List Player) (sid : String) : Option Nat :=
  (((enumeratedPlayers ps).filter (fun ip => ip.2.solver_id == sid)).map (fun ip => ip.1)).getLast?

/-- `self.teams = set([p.team for p in self.players])`, as a duplicate-free
list of team names. -/
def teamsOf (ps : List Player) : List String :=
  (ps.map (fun p => p.team)).dedup

/-- `Optimizer._is_locked(p)`: named-group lock, exposure lock, or the
player's own lock flag. -/
def isLockedResolved (lc : LineupConstraints) (lockedExp : List String) (p : Player) : Bool :=
  lc.is_locked p.name || lockedExp.contains p.name || p.lock

/-- `Optimizer._is_banned(p)`: named-group ban, exposure ban, or the
player's own ban flag. -/
def isBannedResolved (lc : LineupConstraints) (bannedExp : List String) (p : Player) : Bool :=
  lc.is_banned p.name || bannedExp.contains p.name || p.ban

/-- The per-player body of the `Optimizer.__init__` loop: upgrade the lock
flag when `_is_locked`, then the ban flag when `_is_banned` (the in-place
mutation of the caller's player record). -/
def resolvePlayer (lc : LineupConstraints) (lockedExp bannedExp : List String)
    (p : Player) : Player :=
  let p1 := if isLockedResolved lc lockedExp p then { p with lock := true } else p
  if isBannedResolved lc bannedExp p1 then { p1 with ban := true } else p1

/-- The `Optimizer.__init__` player loop: resolve each player's lock/ban in
order and raise `PlayerBanAndLockException(player.name)` at the first player
whose resolved flags are both set.  Returns the mutated player list. -/
def constructPlayers (lc : LineupConstraints) (lockedExp bannedExp : List String) :
    List Player → Except String (List Player)
  | [] => .ok []
  | p :: rest =>
    let q := resolvePlayer lc lockedExp bannedExp p
    if q.lock && q.ban then
      .error q.name
    else
      match constructPlayers lc lockedExp bannedExp rest with
      | .ok qs => .ok (q :: qs)
      | .error e => .error e

/-- The state held by a successfully constructed `Optimizer`: the (mutated)
players plus everything `__init__` copied out of the rule set, settings,
lineup constraints and exposure directive.  Constraint building (`solve`)
only ever runs on such a state, so an `__init__` failure precedes every
constraint. -/
structure Optimizer where
  players : List Player
  existing_rosters : List (List Player)
  salary_min : Int
  salary_max : Int
  roster_size : Int
  position_limits : List (String × Int × Int)
  offensive_positions : List String
  defensive_positions : List String
  general_position_limits : List (String × Int × Int)
  showdown : Bool
  settings : OptimizerSettings
  lineup_constraints : LineupConstraints
  banned_for_exposure : List String
  locked_for_exposure : List String

/-- The `locked` list of the exposure directive: `exposure_dct['locked']`
when a directive is given, else `[]`. -/
def lockedExpOf (exposure? : Option (List String × List String)) : List String :=
  (exposure?.map (fun e => e.1)).getD []

/-- The `banned` list of the exposure directive: `exposure_dct['banned']`
when a directive is given, else `[]`. -/
def bannedExpOf (exposure? : Option (List String × List String)) : List String :=
  (exposure?.map (fun e => e.2)).getD []

/-- `Optimizer.__init__`: default the settings when absent, split the
exposure directive, resolve every player's lock/ban (raising
`PlayerBanAndLockException` on a conflict) and record the rule-set fields.
No constraint object exists yet: constraints are built only by `solve` on
the returned state. -/
def mkOptimizer (players : List Player) (rs : RuleSet)
    (settings? : Option OptimizerSettings) (lc : LineupConstraints)
    (exposure? : Option (List String × List String)) : Except String Optimizer :=
  let settings := settings?.getD OptimizerSettings.default
  let lockedExp := lockedExpOf exposure?
  let bannedExp := bannedExpOf exposure?
  match constructPlayers lc lockedExp bannedExp players with
  | .error e => .error e
  | .ok ps =>
    .ok {
      players := ps
      existing_rosters := settings.existing_rosters
      salary_min := rs.salary_min
      salary_max := rs.salary_max
      roster_size := rs.roster_size
      position_limits := rs.position_limits
      offensive_positions := rs.offensive_positions
      defensive_positions := rs.defensive_positions
      general_position_limits := rs.general_position_limits
      showdown := rs.game_type == "showdown"
      settings := settings
      lineup_constraints := lc
      banned_for_exposure := bannedExp
      locked_for_exposure := lockedExp
    }

/-- Modelled from the spec: the solver adapter (§4.4) creates a linear row
constraint either with no arguments (unbounded) or from a `(lower, upper)`
bound pair; no single-numeric form exists, so any other numeric arity is an
error of the adapter, not a constraint.  This embeds the arity dispatch of
`self.solver.Constraint(...)`. -/
def solverRowConstraint : List Int → Except String (Option Int × Option Int)
  | [] => .ok (none, none)
  | [lb, ub] => .ok (some lb, some ub)
  | _ => .error "NotImplementedError: wrong number or type of arguments"

/-- Append one coefficient `(v, 1)` to the `j`-th constraint of the list:
the effect of `constraint.SetCoefficient(self.variables[v], 1)` on a
previously created shared constraint. -/
def addCoeffAt (cs : List LinCon) (j v : Nat) : List LinCon :=
  match cs, j with
  | [], _ => []
  | c :: rest, 0 => { c with coeffs := c.coeffs ++ [(v, 1)] } :: rest
  | c :: rest, Nat.succ j => c :: addCoeffAt rest j v

/-- The loop body state of `_set_player_constraints`: `multiMap` maps a
player name to the index (within the accumulated constraint list) of its
shared constraint, mirroring the `multi_constraints` dict. -/
def setPlayerConstraintsAux (showdown : Bool) :
    List (Nat × Player) → List (String × Nat) → List LinCon →
    Except String (List LinCon)
  | [], _, acc => .ok acc
  | (i, p) :: rest, multiMap, acc =>
    let lb : Int := if p.lock then 1 else 0
    let ub : Int := if p.ban then 0 else 1
    if lb > ub then
      .error "InvalidBoundsException"
    else if p.multi_position || (showdown && p.captain) then
      match multiMap.lookup p.name with
      | some j => setPlayerConstraintsAux showdown rest multiMap (addCoeffAt acc j i)
      | none =>
        setPlayerConstraintsAux showdown rest ((p.name, acc.length) :: multiMap)
          (acc ++ [⟨some lb, some ub, [(i, 1)]⟩])
    else
      setPlayerConstraintsAux showdown rest multiMap (acc ++ [⟨some lb, some ub, [(i, 1)]⟩])

/-- `Optimizer._set_player_constraints`: per-player bound constraints with
`lb = 1` iff locked and `ub = 0` iff banned, raising
`InvalidBoundsException` when `lb > ub`; a multi-position player, or a
captain-flagged player in showdown mode, shares one constraint keyed by
name via the `multi_constraints` dict. -/
def setPlayerConstraints (o : Optimizer) : Except String (List LinCon) :=
  setPlayerConstraintsAux o.showdown (enumeratedPlayers o.players) [] []

/-- The per-group body of `_set_player_group_constraints`: bounds come from
the exact count when it is truthy, else from `(lb, ub)`; coefficients come
from `name_to_idx_map[name]`, which raises `KeyError` on an unknown name. -/
def groupCon (o : Optimizer) (g : GroupConstraint) : Except String LinCon :=
  let bounds : Int × Int :=
    match g.exact with
    | some e => if e ≠ 0 then (e, e) else (g.lb, g.ub)
    | none => (g.lb, g.ub)
  match (g.players.mapM (fun n => nameToIdx o.players n)) with
  | some idxs => .ok ⟨some bounds.1, some bounds.2, idxs.map (fun i => (i, 1))⟩
  | none => .error "KeyError"

/-- `Optimizer._set_player_group_constraints`: one constraint per group
constraint in the lineup-constraints iterable. -/
def setPlayerGroupConstraints (o : Optimizer) : Except String (List LinCon) :=
  o.lineup_constraints.groups.mapM (groupCon o)

/-- The pass-catcher position list of `_set_combo`: `['WR']`, with `'TE'`
appended when `combo_allow_te` is set. -/
def comboSkillType (combo_allow_te : Bool) : List String :=
  if combo_allow_te then ["WR", "TE"] else ["WR"]

/-- The `skillplayers_on_team` comprehension of `_set_combo`: indices of a
team's players whose position is in the pass-catcher list. -/
def teamSkillIdxs (ps : List Player) (combo_allow_te : Bool) (team : String) : List Nat :=
  (enumeratedPlayers ps).filterMap (fun ip =>
    if ip.2.team == team && (comboSkillType combo_allow_te).contains ip.2.pos
    then some ip.1 else none)

/-- The `qbs_on_team` comprehension of `_set_combo`: indices of a team's
quarterbacks. -/
def teamQbIdxs (ps : List Player) (team : String) : List Nat :=
  (enumeratedPlayers ps).filterMap (fun ip =>
    if ip.2.team == team && ip.2.pos == "QB" then some ip.1 else none)

/-- `Optimizer._set_combo`: when `force_combo` is set, for each team add
`Sum(skill players on team) >= Sum(QBs on team)`, embedded as the linear
constraint `sum(skill) - sum(qbs) ∈ [0, ∞)`. -/
def setCombo (o : Optimizer) : List LinCon :=
  if o.settings.force_combo then
    (teamsOf o.players).map (fun team =>
      ⟨some 0, none,
        (teamSkillIdxs o.players o.settings.combo_allow_te team).map (fun i => (i, 1)) ++
        (teamQbIdxs o.players team).map (fun i => (i, -1))⟩)
  else []

/-- The `offensive_against` comprehension of `_set_no_opp_defense`: indices
of players whose position is offensive, whose match-up opposes `team`, and
for which `use_showdown and p.captain` holds. -/
def offensiveAgainstIdxs (o : Optimizer) (use_showdown : Bool) (team : String) : List Nat :=
  (enumeratedPlayers o.players).filterMap (fun ip =>
    if o.offensive_positions.contains ip.2.pos
        && ip.2.is_opposing_team_in_match_up team
        && use_showdown && ip.2.captain
    then some ip.1 else none)

/-- The `defensive` comprehension of `_set_no_opp_defense`: indices of
players on `team` at a defensive position. -/
def defensiveIdxs (o : Optimizer) (team : String) : List Nat :=
  (enumeratedPlayers o.players).filterMap (fun ip =>
    if ip.2.team == team && o.defensive_positions.contains ip.2.pos
    then some ip.1 else none)

/-- `Optimizer._set_no_opp_defense`: the anti-correlation family.  The
guard is Python's `offensive_pos and defensive_pos and use_classic or
use_showdown` (with `and` binding tighter than `or`); inside, an offensive
variable qualifies only when `use_showdown and p.captain` also hold, and
each (offense, defense) pair yields `Add(p <= 1 - d)`, embedded as
`p + d ∈ (-∞, 1]`. -/
def setNoOppDefense (o : Optimizer) : List LinCon :=
  let use_showdown := o.settings.no_defense_against_captain && o.showdown
  if (!o.offensive_positions.isEmpty && !o.defensive_positions.isEmpty &&
        (o.settings.no_offense_against_defense && !o.showdown))
      || use_showdown then
    (teamsOf o.players).flatMap (fun team =>
      (offensiveAgainstIdxs o use_showdown team).flatMap (fun pv =>
        (defensiveIdxs o team).map (fun dv => ⟨none, some 1, [(pv, 1), (dv, 1)]⟩)))
  else []

/-- `Optimizer._set_no_duplicate_lineups`: one constraint per existing
roster, bounded by `[0, roster_size - 1]`, or `[0, max(roster_size -
uniques, 1)]` when the uniques setting is truthy; coefficients only for
roster players whose solver id is in the current pool's index map. -/
def setNoDuplicateLineups (o : Optimizer) : List LinCon :=
  o.existing_rosters.map (fun roster =>
    let max_repeats : Int :=
      if o.settings.uniques ≠ 0 then
        max (o.roster_size - o.settings.uniques) 1
      else
        o.roster_size - 1
    ⟨some 0, some max_repeats,
      roster.filterMap (fun pl =>
        (solverIdToIdx o.players pl.solver_id).map (fun i => (i, 1)))⟩)

/-- `Optimizer._set_single_captain`: creates the captain constraint with
the single-argument call `self.solver.Constraint(1)` and gives a
coefficient to every captain-flagged player's variable. -/
def setSingleCaptain (o : Optimizer) : Except String LinCon :=
  match solverRowConstraint [1] with
  | .error e => .error e
  | .ok bounds =>
    .ok ⟨bounds.1, bounds.2,
      (enumeratedPlayers o.players).filterMap (fun ip =>
        if ip.2.captain then some (ip.1, 1) else none)⟩

/-! ## Lemmas about eligibility resolution and construction -/

theorem resolvePlayer_eq (lc : LineupConstraints) (le be : List String) (p : Player) :
    resolvePlayer lc le be p =
      { p with lock := isLockedResolved lc le p, ban := isBannedResolved lc be p } := by
  cases p with
  | mk name team pos sid mp cap lock ban opp cost proj =>
    simp only [resolvePlayer, isLockedResolved, isBannedResolved,
      LineupConstraints.is_locked, LineupConstraints.is_banned]
    cases lock <;> cases ban <;>
      cases h1 : lc.lockedPred name <;> cases h2 : lc.bannedPred name <;>
      cases h3 : le.contains name <;> cases h4 : be.contains name <;>
      simp_all

theorem constructPlayers_ok_eq (lc : LineupConstraints) (le be : List String)
    (ps qs : List Player) (h : constructPlayers lc le be ps = .ok qs) :
    qs = ps.map (fun p =>
      { p with lock := isLockedResolved lc le p, ban := isBannedResolved lc be p }) := by
  induction ps generalizing qs with
  | nil =>
    simp only [constructPlayers] at h
    cases h
    rfl
  | cons p rest ih =>
    simp only [constructPlayers] at h
    by_cases hc : ((resolvePlayer lc le be p).lock && (resolvePlayer lc le be p).ban) = true
    · rw [if_pos hc] at h
      cases h
    · rw [if_neg hc] at h
      cases hr : constructPlayers lc le be rest with
      | ok qs2 =>
        rw [hr] at h
        cases h
        rw [List.map_cons, ← resolvePlayer_eq, ih qs2 hr]
      | error e =>
        rw [hr] at h
        cases h

theorem constructPlayers_ok_of_no_conflict (lc : LineupConstraints) (le be : List String)
    (ps : List Player)
    (h : ∀ p ∈ ps, ¬(isLockedResolved lc le p = true ∧ isBannedResolved lc be p = true)) :
    ∃ qs, constructPlayers lc le be ps = .ok qs := by
  induction ps with
  | nil => exact ⟨[], rfl⟩
  | cons p rest ih =>
    have hp := h p (List.mem_cons_self p rest)
    have hrest := ih (fun q hq => h q (List.mem_cons_of_mem p hq))
    obtain ⟨qs, hqs⟩ := hrest
    refine ⟨{ p with
              lock := isLockedResolved lc le p
              ban := isBannedResolved lc be p } :: qs, ?_⟩
    simp only [constructPlayers, resolvePlayer_eq]
    have hcond : ¬(isLockedResolved lc le p && isBannedResolved lc be p) = true := by
      intro hcc
      exact hp ⟨(Bool.and_eq_true _ _ ▸ hcc).1, (Bool.and_eq_true _ _ ▸ hcc).2⟩
    rw [if_neg hcond, hqs]

theorem constructPlayers_error_conflict (lc : LineupConstraints) (le be : List String)
    (ps : List Player) (n : String) (h : constructPlayers lc le be ps = .error n) :
    ∃ p ∈ ps, p.name = n ∧
      isLockedResolved lc le p = true ∧ isBannedResolved lc be p = true := by
  induction ps with
  | nil =>
    simp [constructPlayers] at h
  | cons p rest ih =>
    simp only [constructPlayers] at h
    by_cases hc : ((resolvePlayer lc le be p).lock && (resolvePlayer lc le be p).ban) = true
    · rw [if_pos hc] at h
      cases h
      rw [resolvePlayer_eq] at hc
      simp only [Bool.and_eq_true] at hc
      refine ⟨p, List.mem_cons_self p rest, ?_, hc.1, hc.2⟩
      rw [resolvePlayer_eq]
    · rw [if_neg hc] at h
      cases hr : constructPlayers lc le be rest with
      | ok qs2 =>
        rw [hr] at h
        cases h
      | error e =>
        rw [hr] at h
        cases h
        obtain ⟨q, hq, hqn, hql, hqb⟩ := ih hr
        exact ⟨q, List.mem_cons_of_mem p hq, hqn, hql, hqb⟩

theorem constructPlayers_conflict_not_ok (lc : LineupConstraints) (le be : List String)
    (ps : List Player) (p : Player) (hp : p ∈ ps)
    (hl : isLockedResolved lc le p = true) (hb : isBannedResolved lc be p = true) :
    ∀ qs, constructPlayers lc le be ps ≠ .ok qs := by
  induction ps with
  | nil => cases hp
  | cons q rest ih =>
    intro qs hqs
    simp only [constructPlayers] at hqs
    by_cases hc : ((resolvePlayer lc le be q).lock && (resolvePlayer lc le be q).ban) = true
    · rw [if_pos hc] at hqs
      cases hqs
    · rw [if_neg hc] at hqs
      rcases List.mem_cons.mp hp with hpq | hpr
      · subst hpq
        rw [resolvePlayer_eq] at hc
        simp only [Bool.and_eq_true] at hc
        exact hc ⟨hl, hb⟩
      · cases hr : constructPlayers lc le be rest with
        | ok qs2 =>
          exact ih hpr qs2 hr
        | error e =>
          rw [hr] at hqs
          cases hqs

/-! ## Concrete fixtures used by witnesses and counterexamples -/

/-- An empty lineup-constraints collection: no groups, no name locks/bans. -/
def lcEmpty : LineupConstraints := ⟨[], fun _ => false, fun _ => false⟩

/-- A classic NFL-style rule set. -/
def rsClassic : RuleSet :=
  ⟨0, 50000, 9, [("QB", 1, 1)], [], ["QB", "RB", "WR", "TE"], ["DST"], "classic"⟩

/-- A showdown rule set. -/
def rsShowdown : RuleSet :=
  ⟨0, 50000, 6, [], [], ["QB", "RB", "WR", "TE"], ["DST"], "showdown"⟩

/-- A quarterback on team X whose match-up opposes team Y. -/
def pQbX : Player := ⟨"QB1", "X", "QB", "qb1", false, false, false, false, "Y", 5000, 20⟩

/-- A defense on team Y whose match-up opposes team X. -/
def pDstY : Player := ⟨"DST1", "Y", "DST", "dst1", false, false, false, false, "X", 3000, 8⟩

/-- A player with an explicit lock flag (to be banned via exposure in
conflict fixtures). -/
def pLockedB : Player := ⟨"B", "X", "QB", "b1", false, false, true, false, "Y", 5000, 20⟩

/-! ## C3: lock+ban conflict fails construction, before any constraint -/

/-- C3: optimizer construction fails with `PlayerBanAndLockException`
exactly when some player's resolved lock and resolved ban both hold, and
the raised error names such a player; it succeeds (producing the state that
every constraint builder requires, so the failure precedes all constraint
building) whenever no player is both resolved-locked and resolved-banned. -/
theorem c3_ban_and_lock_conflict (players : List Player) (rs : RuleSet)
    (settings? : Option OptimizerSettings) (lc : LineupConstraints)
    (exposure? : Option (List String × List String)) :
    ((∃ o, mkOptimizer players rs settings? lc exposure? = .ok o) ↔
      ∀ p ∈ players, ¬(isLockedResolved lc (lockedExpOf exposure?) p = true ∧
        isBannedResolved lc (bannedExpOf exposure?) p = true)) ∧
    (∀ n, mkOptimizer players rs settings? lc exposure? = .error n →
      ∃ p ∈ players, p.name = n ∧
        isLockedResolved lc (lockedExpOf exposure?) p = true ∧
        isBannedResolved lc (bannedExpOf exposure?) p = true) := by
  constructor
  · constructor
    · rintro ⟨o, ho⟩ p hp ⟨hl, hb⟩
      simp only [mkOptimizer] at ho
      cases hcp : constructPlayers lc (lockedExpOf exposure?) (bannedExpOf exposure?) players with
      | ok qs =>
        exact constructPlayers_conflict_not_ok lc (lockedExpOf exposure?)
          (bannedExpOf exposure?) players p hp hl hb qs hcp
      | error e =>
        rw [hcp] at ho
        cases ho
    · intro hno
      obtain ⟨qs, hqs⟩ := constructPlayers_ok_of_no_conflict lc (lockedExpOf exposure?)
        (bannedExpOf exposure?) players hno
      exact ⟨_, by simp only [mkOptimizer, hqs]; exact rfl⟩
  · intro n hn
    simp only [mkOptimizer] at hn
    cases hcp : constructPlayers lc (lockedExpOf exposure?) (bannedExpOf exposure?) players with
    | ok qs =>
      rw [hcp] at hn
      cases hn
    | error e =>
      rw [hcp] at hn
      cases hn
      exact constructPlayers_error_conflict lc (lockedExpOf exposure?)
        (bannedExpOf exposure?) players n hcp

/-- Witness for C3 at a concrete input: player "B" is locked by its explicit
flag and banned via the exposure set, and construction indeed raises the
error naming "B". -/
theorem c3_ban_and_lock_conflict_witness :
    ∃ p ∈ [pLockedB], p.name = "B" ∧
      isLockedResolved lcEmpty (lockedExpOf (some ([], ["B"]))) p = true ∧
      isBannedResolved lcEmpty (bannedExpOf (some ([], ["B"]))) p = true :=
  (c3_ban_and_lock_conflict [pLockedB] rsClassic none lcEmpty (some ([], ["B"]))).2 "B" rfl

/-! ## C9: construction mutates the lock/ban flags of player records -/

/-- Counterexample to C9: player "QB1" enters construction with
`lock = false`, is locked via the exposure directive, and the constructed
optimizer holds the record with `lock = true` — the caller's player record
(mutated in place by `__init__`) did not stay unchanged. -/
theorem c9_player_records_read_only_counterexample :
    pQbX.lock = false ∧
    ∃ o, mkOptimizer [pQbX] rsClassic none lcEmpty (some (["QB1"], [])) = .ok o ∧
      o.players = [{ pQbX with lock := true }] :=
  ⟨rfl, _, rfl, rfl⟩

/-- C9 as amended: optimizer construction leaves every player field
unchanged EXCEPT the lock and ban flags, which it overwrites with the
resolved lock/ban values; the resolution only upgrades (a flag already true
stays true), and solving adds no further mutation since the constraint
builders are pure readers of the constructed state. -/
theorem c9_construction_mutates_only_lock_ban (players : List Player) (rs : RuleSet)
    (settings? : Option OptimizerSettings) (lc : LineupConstraints)
    (exposure? : Option (List String × List String)) (o : Optimizer)
    (h : mkOptimizer players rs settings? lc exposure? = .ok o) :
    o.players = players.map (fun p =>
      { p with lock := isLockedResolved lc (lockedExpOf exposure?) p,
               ban := isBannedResolved lc (bannedExpOf exposure?) p }) ∧
    (∀ p ∈ players, p.lock = true → isLockedResolved lc (lockedExpOf exposure?) p = true) ∧
    (∀ p ∈ players, p.ban = true → isBannedResolved lc (bannedExpOf exposure?) p = true) := by
  refine ⟨?_, ?_, ?_⟩
  · simp only [mkOptimizer] at h
    cases hcp : constructPlayers lc (lockedExpOf exposure?) (bannedExpOf exposure?) players with
    | ok qs =>
      rw [hcp] at h
      cases h
      exact constructPlayers_ok_eq lc (lockedExpOf exposure?) (bannedExpOf exposure?) players qs hcp
    | error e =>
      rw [hcp] at h
      cases h
  · intro p _ hp
    simp [isLockedResolved, hp]
  · intro p _ hp
    simp [isBannedResolved, hp]

/-- Witness for C9-as-amended at a concrete input: the exposure-locked
player's record keeps every field and gains only `lock = true`. -/
theorem c9_construction_mutates_only_lock_ban_witness :
    ∃ o, mkOptimizer [pQbX] rsClassic none lcEmpty (some (["QB1"], [])) = .ok o ∧
      o.players = [pQbX].map (fun p =>
        { p with lock := isLockedResolved lcEmpty (lockedExpOf (some (["QB1"], []))) p,
                 ban := isBannedResolved lcEmpty (bannedExpOf (some (["QB1"], []))) p }) :=
  ⟨_, rfl,
    (c9_construction_mutates_only_lock_ban [pQbX] rsClassic none lcEmpty
      (some (["QB1"], [])) _ rfl).1⟩

/-! ## C8: the InvalidBoundsException branch is unreachable after a
successful construction -/

theorem snd_mem_of_mem_enumFrom {α : Type} :
    ∀ (l : List α) (n : Nat) (ip : Nat × α), ip ∈ l.enumFrom n → ip.2 ∈ l := by
  intro l
  induction l with
  | nil =>
    intro n ip h
    cases h
  | cons a t ih =>
    intro n ip h
    rcases List.mem_cons.mp h with h1 | h2
    · subst h1
      exact List.mem_cons_self a t
    · exact List.mem_cons_of_mem a (ih (n + 1) ip h2)

theorem constructPlayers_ok_no_conflict (lc : LineupConstraints) (le be : List String)
    (ps qs : List Player) (h : constructPlayers lc le be ps = .ok qs) :
    ∀ p ∈ ps, ¬(isLockedResolved lc le p = true ∧ isBannedResolved lc be p = true) := by
  intro p hp ⟨hl, hb⟩
  exact constructPlayers_conflict_not_ok lc le be ps p hp hl hb qs h

theorem setPlayerConstraintsAux_ok (showdown : Bool) :
    ∀ (l : List (Nat × Player)) (mm : List (String × Nat)) (acc : List LinCon),
      (∀ ip ∈ l, ¬(ip.2.lock = true ∧ ip.2.ban = true)) →
      ∃ cs, setPlayerConstraintsAux showdown l mm acc = .ok cs := by
  intro l
  induction l with
  | nil =>
    intro mm acc _
    exact ⟨acc, rfl⟩
  | cons ip rest ih =>
    intro mm acc h
    obtain ⟨i, p⟩ := ip
    have hp := h (i, p) (List.mem_cons_self _ _)
    have hrest := fun mm2 acc2 => ih mm2 acc2 (fun q hq => h q (List.mem_cons_of_mem _ hq))
    simp only [setPlayerConstraintsAux]
    have hbound : ¬((if p.lock then (1 : Int) else 0) > (if p.ban then (0 : Int) else 1)) := by
      cases hl : p.lock <;> cases hb : p.ban <;> simp_all
    rw [if_neg hbound]
    by_cases hm : (p.multi_position || (showdown && p.captain)) = true
    · rw [if_pos hm]
      cases hl2 : List.lookup p.name mm with
      | some j => exact hrest mm (addCoeffAt acc j i)
      | none =>
        exact hrest ((p.name, acc.length) :: mm)
          (acc ++ [⟨some (if p.lock then 1 else 0), some (if p.ban then 0 else 1), [(i, 1)]⟩])
    · rw [if_neg hm]
      exact hrest mm
        (acc ++ [⟨some (if p.lock then 1 else 0), some (if p.ban then 0 else 1), [(i, 1)]⟩])

/-- C8: after a construction that did not raise `PlayerBanAndLockException`
(and with the player records unchanged since, as the embedding's state is
immutable), `_set_player_constraints` never reaches the
`InvalidBoundsException` branch: every player's resolved lower bound is at
most its upper bound, so the builder returns constraints. -/
theorem c8_invalid_bounds_unreachable (players : List Player) (rs : RuleSet)
    (settings? : Option OptimizerSettings) (lc : LineupConstraints)
    (exposure? : Option (List String × List String)) (o : Optimizer)
    (h : mkOptimizer players rs settings? lc exposure? = .ok o) :
    ∃ cs, setPlayerConstraints o = .ok cs := by
  simp only [mkOptimizer] at h
  cases hcp : constructPlayers lc (lockedExpOf exposure?) (bannedExpOf exposure?) players with
  | error e =>
    rw [hcp] at h
    cases h
  | ok qs =>
    rw [hcp] at h
    cases h
    have hnc := constructPlayers_ok_no_conflict lc (lockedExpOf exposure?)
      (bannedExpOf exposure?) players qs hcp
    have heq := constructPlayers_ok_eq lc (lockedExpOf exposure?)
      (bannedExpOf exposure?) players qs hcp
    apply setPlayerConstraintsAux_ok
    intro ip hip
    have hmem : ip.2 ∈ qs := snd_mem_of_mem_enumFrom qs 0 ip hip
    rw [heq] at hmem
    obtain ⟨p, hp, hpq⟩ := List.mem_map.mp hmem
    intro ⟨hl, hb⟩
    rw [← hpq] at hl hb
    exact hnc p hp ⟨hl, hb⟩

/-- The optimizer state built by a successful construction over the
two-player classic fixture, used to witness C8. -/
def oFixClassic : Optimizer :=
  { players := [pQbX, pDstY]
    existing_rosters := []
    salary_min := 0
    salary_max := 50000
    roster_size := 9
    position_limits := [("QB", 1, 1)]
    offensive_positions := ["QB", "RB", "WR", "TE"]
    defensive_positions := ["DST"]
    general_position_limits := []
    showdown := false
    settings := OptimizerSettings.default
    lineup_constraints := lcEmpty
    banned_for_exposure := []
    locked_for_exposure := [] }

/-- Witness for C8 at a concrete input: construction of the classic
fixture succeeds and the per-player bound builder returns constraints. -/
theorem c8_invalid_bounds_unreachable_witness :
    ∃ cs, setPlayerConstraints oFixClassic = .ok cs :=
  c8_invalid_bounds_unreachable [pQbX, pDstY] rsClassic none lcEmpty none oFixClassic rfl

/-! ## C1: classic anti-correlation never fires (code bug) -/

/-- A classic-mode optimizer with the classic anti-correlation toggle on,
a quarterback opposing team Y and a defense on team Y. -/
def oClassicAnti : Optimizer :=
  { oFixClassic with settings := { no_offense_against_defense := true } }

/-- C1, evaluated at the failing input: in classic mode with
`no_offense_against_defense` enabled, non-empty offensive and defensive
position sets, an offensive-position player opposing team "Y" and a
defensive-position player on team "Y", `_set_no_opp_defense` adds NO
constraint at all — the `offensive_against` filter requires
`use_showdown and p.captain`, which is always false in classic mode, so the
claimed `offense_var <= 1 - defense_var` constraints are never built. -/
theorem c1_classic_anti_correlation_dead :
    oClassicAnti.showdown = false ∧
    oClassicAnti.settings.no_offense_against_defense = true ∧
    oClassicAnti.offensive_positions ≠ [] ∧
    oClassicAnti.defensive_positions ≠ [] ∧
    "Y" ∈ teamsOf oClassicAnti.players ∧
    (∃ ip ∈ enumeratedPlayers oClassicAnti.players,
      oClassicAnti.offensive_positions.contains ip.2.pos = true ∧
      ip.2.is_opposing_team_in_match_up "Y" = true) ∧
    (∃ ip ∈ enumeratedPlayers oClassicAnti.players,
      ip.2.team = "Y" ∧ oClassicAnti.defensive_positions.contains ip.2.pos = true) ∧
    setNoOppDefense oClassicAnti = [] := by
  refine ⟨rfl, rfl, by decide, by decide, by decide, ⟨(0, pQbX), by decide, rfl, rfl⟩,
    ⟨(1, pDstY), by decide, rfl, rfl⟩, rfl⟩

/-! ## C4: per-player bounds and the shared-constraint key (code bug in
showdown for non-captain instances) -/

/-- The captain-row instance of physical player "A" in a showdown pool. -/
def pACap : Player := ⟨"A", "X", "QB", "a-cap", false, true, false, false, "Y", 15000, 30⟩

/-- The utility-row instance of the same physical player "A". -/
def pAFlex : Player := ⟨"A", "X", "QB", "a-flex", false, false, false, false, "Y", 10000, 20⟩

/-- A showdown optimizer whose pool holds the two instances of player "A". -/
def oShowdownPair : Optimizer :=
  { oFixClassic with
    players := [pACap, pAFlex]
    roster_size := 6
    showdown := true }

/-- C4, evaluated at the failing input: in showdown mode the two instances
of the same physical player "A" (captain row and utility row, neither
multi-position) receive TWO separate bound constraints — the grouping test
is `p.multi_position or (showdown and p.captain)`, so the non-captain
instance bypasses the name-keyed shared constraint, and the physical player
is bounded once per slot instead of once per player (each instance has its
own `[0, 1]` row, so both rows can be 1 simultaneously). -/
theorem c4_showdown_bound_not_shared :
    oShowdownPair.showdown = true ∧
    pACap.name = pAFlex.name ∧
    pAFlex.captain = false ∧
    pAFlex.multi_position = false ∧
    setPlayerConstraints oShowdownPair =
      .ok [⟨some 0, some 1, [(0, 1)]⟩, ⟨some 0, some 1, [(1, 1)]⟩] :=
  ⟨rfl, rfl, rfl, rfl, rfl⟩

/-! ## C6: the single-captain constraint (code bug: single-argument
constraint creation) -/

/-- C6, evaluated at the failing input: in showdown mode with
captain-eligible players in the pool, `_set_single_captain` creates its
constraint with the single-argument call `Constraint(1)`, which matches no
(lower, upper) form of the solver adapter — no `(1, 1)`-bounded constraint
over the captain variables is ever built. -/
theorem c6_single_captain_bad_constraint_call :
    oShowdownPair.showdown = true ∧
    pACap.captain = true ∧
    setSingleCaptain oShowdownPair =
      .error "NotImplementedError: wrong number or type of arguments" :=
  ⟨rfl, rfl, rfl⟩

/-! ## C10: a falsy exact count falls back to the (lb, ub) bounds -/

/-- C10: for every group constraint whose exact count is 0 or unspecified
(both falsy under `if group_constraint.exact:`), the built constraint is
bounded by the group's (lower, upper) pair; only a nonzero exact count
yields the (exact, exact) equality bound. -/
theorem c10_falsy_exact_uses_lb_ub (o : Optimizer) (g : GroupConstraint) (c : LinCon)
    (h : groupCon o g = .ok c) :
    ((g.exact = none ∨ g.exact = some 0) → c.lb = some g.lb ∧ c.ub = some g.ub) ∧
    (∀ e, g.exact = some e → e ≠ 0 → c.lb = some e ∧ c.ub = some e) := by
  simp only [groupCon] at h
  cases hmm : g.players.mapM (fun n => nameToIdx o.players n) with
  | none =>
    rw [hmm] at h
    cases h
  | some idxs =>
    rw [hmm] at h
    cases h
    constructor
    · rintro (he | he) <;> rw [he] <;> exact ⟨rfl, rfl⟩
    · intro e he hne
      rw [he]
      simp [hne]

/-- Witness for C10 at a concrete input: the group `["QB1"]` with
`exact = some 0` and bounds `(1, 2)` compiles to the bounds `(1, 2)`,
not `(0, 0)`. -/
theorem c10_falsy_exact_uses_lb_ub_witness :
    (⟨some 1, some 2, [(0, 1)]⟩ : LinCon).lb = some (1 : Int) ∧
    (⟨some 1, some 2, [(0, 1)]⟩ : LinCon).ub = some (2 : Int) :=
  (c10_falsy_exact_uses_lb_ub oFixClassic ⟨["QB1"], some 0, 1, 2⟩
    ⟨some 1, some 2, [(0, 1)]⟩ rfl).1 (Or.inr rfl)

/-! ## C5: no-duplicate-lineups constraints -/

/-- C5: one constraint per existing roster, bounded below by 0 and above by
`roster_size - 1` (no uniques configured) or `max(roster_size - uniques, 1)`
(uniques configured); its coefficients are exactly those of the roster's
players present in the current pool — absent players contribute nothing. -/
theorem c5_no_duplicate_lineups (o : Optimizer) (r : List Player)
    (hr : r ∈ o.existing_rosters) :
    (setNoDuplicateLineups o).length = o.existing_rosters.length ∧
    ∃ c ∈ setNoDuplicateLineups o,
      c.lb = some 0 ∧
      c.ub = some (if o.settings.uniques ≠ 0 then max (o.roster_size - o.settings.uniques) 1
                   else o.roster_size - 1) ∧
      c.coeffs = r.filterMap (fun pl =>
        (solverIdToIdx o.players pl.solver_id).map (fun i => (i, 1))) ∧
      (∀ pl ∈ r, ∀ i, solverIdToIdx o.players pl.solver_id = some i →
        (i, (1 : Int)) ∈ c.coeffs) ∧
      (∀ jk ∈ c.coeffs, ∃ pl ∈ r, solverIdToIdx o.players pl.solver_id = some jk.1) := by
  constructor
  · simp [setNoDuplicateLineups]
  · refine ⟨_, List.mem_map_of_mem _ hr, rfl, rfl, rfl, ?_, ?_⟩
    · intro pl hpl i hi
      exact List.mem_filterMap.mpr ⟨pl, hpl, by rw [hi]; rfl⟩
    · intro jk hjk
      obtain ⟨pl, hpl, heq⟩ := List.mem_filterMap.mp hjk
      cases hsid : solverIdToIdx o.players pl.solver_id with
      | none =>
        rw [hsid] at heq
        cases heq
      | some i =>
        rw [hsid] at heq
        cases heq
        exact ⟨pl, hpl, by rw [hsid]⟩

/-- A classic optimizer with one existing roster and a uniques setting. -/
def oDupFix : Optimizer :=
  { oFixClassic with
    existing_rosters := [[pQbX, pDstY]]
    settings := { uniques := 3 } }

/-- Witness for C5 at a concrete input: the single existing roster yields a
single constraint bounded by `[0, max(9 - 3, 1)]`. -/
theorem c5_no_duplicate_lineups_witness :
    (setNoDuplicateLineups oDupFix).length = oDupFix.existing_rosters.length ∧
    ∃ c ∈ setNoDuplicateLineups oDupFix,
      c.lb = some 0 ∧
      c.ub = some (if oDupFix.settings.uniques ≠ 0 then
                     max (oDupFix.roster_size - oDupFix.settings.uniques) 1
                   else oDupFix.roster_size - 1) := by
  have h := c5_no_duplicate_lineups oDupFix [pQbX, pDstY] (List.mem_cons_self _ _)
  obtain ⟨h1, c, hc, hlb, hub, _⟩ := h
  exact ⟨h1, c, hc, hlb, hub⟩

/-! ## C2: anti-correlation constraints require non-empty position sets and
the matching mode toggle -/

/-- C2: `_set_no_opp_defense` adds a constraint only when both position
sets are non-empty and the toggle matching the current game type is on;
in particular, in showdown with the showdown toggle enabled but an empty
offensive or defensive position set, nothing is added. -/
theorem c2_anti_correlation_activation (o : Optimizer) :
    (∀ c ∈ setNoOppDefense o,
      o.offensive_positions ≠ [] ∧ o.defensive_positions ≠ [] ∧
      (if o.showdown = true then o.settings.no_defense_against_captain
       else o.settings.no_offense_against_defense) = true) ∧
    (o.showdown = true → o.settings.no_defense_against_captain = true →
      (o.offensive_positions = [] ∨ o.defensive_positions = []) →
      setNoOppDefense o = []) := by
  have hmain : ∀ c ∈ setNoOppDefense o,
      o.offensive_positions ≠ [] ∧ o.defensive_positions ≠ [] ∧
      (if o.showdown = true then o.settings.no_defense_against_captain
       else o.settings.no_offense_against_defense) = true := by
    intro c hc
    simp only [setNoOppDefense] at hc
    split at hc
    case isFalse =>
      exact absurd hc (List.not_mem_nil c)
    case isTrue hguard =>
      obtain ⟨team, _, hc2⟩ := List.mem_flatMap.mp hc
      obtain ⟨pv, hpv, hc3⟩ := List.mem_flatMap.mp hc2
      obtain ⟨dv, hdv, _⟩ := List.mem_map.mp hc3
      simp only [offensiveAgainstIdxs] at hpv
      obtain ⟨ip, _, hif⟩ := List.mem_filterMap.mp hpv
      by_cases hcnd : (o.offensive_positions.contains ip.2.pos
          && ip.2.is_opposing_team_in_match_up team
          && (o.settings.no_defense_against_captain && o.showdown) && ip.2.captain) = true
      · simp only [Bool.and_eq_true] at hcnd
        obtain ⟨⟨⟨hcontains, _⟩, hshow⟩, _⟩ := hcnd
        simp only [defensiveIdxs] at hdv
        obtain ⟨jq, _, hjf⟩ := List.mem_filterMap.mp hdv
        by_cases hdcnd : (jq.2.team == team && o.defensive_positions.contains jq.2.pos) = true
        · simp only [Bool.and_eq_true] at hdcnd
          obtain ⟨_, hdcontains⟩ := hdcnd
          refine ⟨?_, ?_, ?_⟩
          · intro heq
            rw [heq] at hcontains
            simp at hcontains
          · intro heq
            rw [heq] at hdcontains
            simp at hdcontains
          · rw [hshow.2, if_pos rfl]
            exact hshow.1
        · rw [if_neg hdcnd] at hjf
          cases hjf
      · rw [if_neg hcnd] at hif
        cases hif
  refine ⟨hmain, ?_⟩
  intro _ _ hor
  refine List.eq_nil_iff_forall_not_mem.mpr ?_
  intro c hc
  rcases hor with he | he
  · exact (hmain c hc).1 he
  · exact (hmain c hc).2.1 he

/-- A showdown optimizer with the showdown anti-correlation toggle on, the
captain instance of a quarterback opposing team Y, and a defense on Y. -/
def oShowAnti : Optimizer :=
  { oFixClassic with
    players := [pACap, pAFlex, pDstY]
    roster_size := 6
    showdown := true
    settings := { no_defense_against_captain := true } }

/-- Witness for C2 at a concrete input: the one anti-correlation constraint
that the showdown fixture produces implies non-empty position sets and the
enabled showdown toggle. -/
theorem c2_anti_correlation_activation_witness :
    oShowAnti.offensive_positions ≠ [] ∧ oShowAnti.defensive_positions ≠ [] ∧
    (if oShowAnti.showdown = true then oShowAnti.settings.no_defense_against_captain
     else oShowAnti.settings.no_offense_against_defense) = true :=
  (c2_anti_correlation_activation oShowAnti).1 ⟨none, some 1, [(0, 1), (2, 1)]⟩ (by decide)

/-! ## C7: the combo (QB correlation) constraint family -/

theorem sum_map_coeff_one (x : Nat → Int) (s : List Nat) :
    ((s.map (fun i => (i, (1 : Int)))).map (fun vc => vc.2 * x vc.1)).sum = (s.map x).sum := by
  induction s with
  | nil => rfl
  | cons a t ih =>
    simp only [List.map_cons, List.sum_cons, ih]
    ring

theorem sum_map_coeff_negone (x : Nat → Int) (q : List Nat) :
    ((q.map (fun i => (i, (-1 : Int)))).map (fun vc => vc.2 * x vc.1)).sum
      = -((q.map x).sum) := by
  induction q with
  | nil => rfl
  | cons a t ih =>
    simp only [List.map_cons, List.sum_cons, ih]
    ring

theorem lhs_skill_minus_qb (x : Nat → Int) (s q : List Nat) (lb ub : Option Int) :
    LinCon.lhs ⟨lb, ub, s.map (fun i => (i, (1 : Int))) ++ q.map (fun i => (i, (-1 : Int)))⟩ x
      = (s.map x).sum - (q.map x).sum := by
  simp only [LinCon.lhs, List.map_append, List.sum_append,
    sum_map_coeff_one, sum_map_coeff_negone]
  ring

/-- C7: with the combo rule off no constraint is added; pass-catcher
eligibility is exactly WR, extended to TE exactly when `combo_allow_te` is
set; and with the combo rule on, each team gets a constraint that an
assignment satisfies iff the team's quarterback total is at most its
pass-catcher total. -/
theorem c7_combo_family (o : Optimizer) :
    (o.settings.force_combo = false → setCombo o = []) ∧
    (∀ p : Player, (comboSkillType o.settings.combo_allow_te).contains p.pos = true ↔
      (p.pos = "WR" ∨ (o.settings.combo_allow_te = true ∧ p.pos = "TE"))) ∧
    (o.settings.force_combo = true →
      ∀ team ∈ teamsOf o.players, ∃ c ∈ setCombo o, ∀ x : Nat → Int,
        c.sat x = true ↔
          ((teamQbIdxs o.players team).map x).sum ≤
          ((teamSkillIdxs o.players o.settings.combo_allow_te team).map x).sum) := by
  refine ⟨?_, ?_, ?_⟩
  · intro h
    simp [setCombo, h]
  · intro p
    cases hte : o.settings.combo_allow_te <;> simp [comboSkillType]
  · intro h team hteam
    have hset : setCombo o = (teamsOf o.players).map (fun team =>
        ⟨some 0, none,
          (teamSkillIdxs o.players o.settings.combo_allow_te team).map (fun i => (i, 1)) ++
          (teamQbIdxs o.players team).map (fun i => (i, -1))⟩) := by
      simp [setCombo, h]
    refine ⟨_, by rw [hset]; exact List.mem_map_of_mem _ hteam, ?_⟩
    intro x
    simp only [LinCon.sat, Option.all, lhs_skill_minus_qb]
    constructor
    · intro hs
      simp only [Bool.and_eq_true, decide_eq_true_eq] at hs
      omega
    · intro hs
      simp only [Bool.and_eq_true, decide_eq_true_eq]
      exact ⟨by omega, trivial⟩

/-- A wide receiver on team X. -/
def pWrX : Player := ⟨"WR1", "X", "WR", "wr1", false, false, false, false, "Y", 4000, 12⟩

/-- A classic optimizer with the combo rule forced on. -/
def oComboFix : Optimizer :=
  { oFixClassic with
    players := [pQbX, pWrX, pDstY]
    settings := { force_combo := true } }

/-- Witness for C7 at a concrete input: team X of the combo fixture gets a
constraint equivalent to `qb total <= pass-catcher total`. -/
theorem c7_combo_family_witness :
    ∃ c ∈ setCombo oComboFix, ∀ x : Nat → Int,
      c.sat x = true ↔
        ((teamQbIdxs oComboFix.players "X").map x).sum ≤
        ((teamSkillIdxs oComboFix.players oComboFix.settings.combo_allow_te "X").map x).sum :=
  (c7_combo_family oComboFix).2.2 rfl "X" (by decide)
